import Mathlib

/-!
Shallow embedding of the ASRA staged artifact pipeline
(`agents/literature_review.ipynb`, `agents/hypothesis_generator.ipynb`,
`agents/visualizer.ipynb`).

External collaborators (BERT scoring, the DeepSeek completion endpoint, the
Stable Diffusion pipeline, and the file loaders from `utils/helpers`) are
modelled as explicit function parameters; fallible calls return
`Except`/`Option`.  JSON documents are modelled by the inductive `JValue`;
machine floats (cosine-similarity scores) are modelled as exact rationals,
since the code only compares and sorts them.
-/

namespace ASRA

/-- JSON values, as produced by `response.json()` and persisted by the
artifact files.  Numbers are modelled as rationals. -/
inductive JValue where
  | null
  | bool (b : Bool)
  | num (q : ℚ)
  | str (s : String)
  | arr (elems : List JValue)
  | obj (fields : List (String × JValue))

/-- Python truthiness (`if result:`) of a JSON value: `None`, `False`, `0`,
`""`, `[]` and `{}` are falsy, everything else truthy. -/
def JValue.truthy : JValue → Bool
  | .null => false
  | .bool b => b
  | .num q => decide (q ≠ 0)
  | .str s => !s.isEmpty
  | .arr elems => !elems.isEmpty
  | .obj fields => !fields.isEmpty

/-- Python truthiness of an optional JSON value (`None` is falsy). -/
def optTruthy : Option JValue → Bool
  | none => false
  | some v => v.truthy

mutual

/-- JSON serialization of a value (string escaping elided; the exact
rendering is immaterial to every property below, it only has to be a
function of the value). -/
def JValue.serialize : JValue → String
  | .null => "null"
  | .bool b => cond b "true" "false"
  | .num q => toString q
  | .str s => "\"" ++ s ++ "\""
  | .arr elems => "[" ++ JValue.serializeElems elems ++ "]"
  | .obj fields => "\x7b" ++ JValue.serializeFields fields ++ "\x7d"

/-- Comma-separated serialization of array elements. -/
def JValue.serializeElems : List JValue → String
  | [] => ""
  | [v] => JValue.serialize v
  | v :: rest => JValue.serialize v ++ ", " ++ JValue.serializeElems rest

/-- Comma-separated serialization of object fields. -/
def JValue.serializeFields : List (String × JValue) → String
  | [] => ""
  | [(k, v)] => "\"" ++ k ++ "\": " ++ JValue.serialize v
  | (k, v) :: rest =>
      "\"" ++ k ++ "\": " ++ JValue.serialize v ++ ", " ++ JValue.serializeFields rest

end

/-- Python dict assignment `m[k] = v` on an insertion-ordered dictionary:
if the key is already present its value is updated in place (position kept),
otherwise the pair is appended at the end. -/
def dictInsert {κ β : Type} [DecidableEq κ] (k : κ) (v : β) (m : List (κ × β)) :
    List (κ × β) :=
  if m.any (fun p => p.1 = k) then
    m.map (fun p => if p.1 = k then (k, v) else p)
  else m ++ [(k, v)]

/-- Python dict lookup `m[k]` (as an option). -/
def dictGet {κ β : Type} [DecidableEq κ] (k : κ) (m : List (κ × β)) : Option β :=
  (m.find? (fun p => p.1 = k)).map Prod.snd

/-- A raw research paper as returned by `load_research_papers`
(`utils/helpers`, external to the pipeline core): a title and a content. -/
structure Paper where
  title : String
  content : String
  deriving DecidableEq

/-- Return value of `extract_key_insights`. -/
structure Insights where
  key_points : List String
  importance_scores : List ℚ
  deriving DecidableEq

/-- One entry of the `literature_analysis.json` artifact. -/
structure LitPayload where
  key_insights : List String
  importance_scores : List ℚ
  deriving DecidableEq

/-- One entry of the `generated_hypotheses.json` artifact. -/
structure HypPayload where
  context : String
  generated_hypothesis : JValue

/-- One entry of the `experimental_analysis.json` artifact. -/
structure ExpPayload where
  feature_importance : List (String × ℚ)
  deriving DecidableEq

/-- The artifact store (`data/outputs`): each named JSON artifact is either
absent (`none`) or a keyed mapping.  `load_json` (in `utils/helpers`, outside
the three agent notebooks) raises on an absent artifact; each stage catches
that and returns an empty mapping, so absence is modelled by `none`. -/
structure Store where
  literature_analysis : Option (List (String × LitPayload))
  generated_hypotheses : Option (List (String × HypPayload))
  experimental_analysis : Option (List (String × ExpPayload))
  visualization_metadata : Option (List (String × String))

/-! ## Literature review agent (`literature_review.ipynb`) -/

/-- Python `str.split(sep)` for a one-character separator: cuts the character
list at every occurrence of `c`; adjacent separators and separators at the
ends produce empty pieces, and the empty input yields one empty piece. -/
def pySplit (c : Char) (l : List Char) : List (List Char) :=
  l.foldr
    (fun x r =>
      if x = c then [] :: r
      else
        match r with
        | [] => [[x]]
        | h :: t => (x :: h) :: t)
    [[]]

/-- Python `str.strip()`: removes whitespace from both ends. -/
def pyStrip (l : List Char) : List Char :=
  ((l.dropWhile Char.isWhitespace).reverse.dropWhile Char.isWhitespace).reverse

/-- The scored sentence list built inside `extract_key_insights`: the text is
split on `'.'` (`text.split('.')`), blank sentences are dropped
(`len(sentence.strip()) > 0`), and each remaining sentence is scored by
cosine similarity against the whole-text embedding; the stripped sentence is
recorded together with the score.  The BERT embedding plus cosine similarity
is the external collaborator, abstracted as `score`. -/
def sentenceScores (score : String → ℚ) (text : String) : List (String × ℚ) :=
  (((pySplit '.' text.toList).map String.mk).filter
      (fun s => 0 < (pyStrip s.toList).length)).map
    (fun s => (String.mk (pyStrip s.toList), score s))

/-- Relation for `sentence_scores.sort(key=lambda x: x[1], reverse=True)`: stable sort by
score, descending. -/
def scoreGE (a b : String × ℚ) : Prop := b.2 ≤ a.2

instance : DecidableRel scoreGE := fun a b => inferInstanceAs (Decidable (b.2 ≤ a.2))

instance : IsTotal (String × ℚ) scoreGE := ⟨fun a b => (le_total b.2 a.2)⟩

instance : IsTrans (String × ℚ) scoreGE :=
  ⟨fun _ _ _ hab hbc => le_trans hbc hab⟩

/-- Function `extract_key_insights(text)`: scores each `'.'`-separated sentence,
sorts by score descending (Python's stable sort) and keeps the top three
sentences with their scores. -/
def extract_key_insights (score : String → ℚ) (text : String) : Insights :=
  let sorted := (sentenceScores score text).insertionSort scoreGE
  { key_points := (sorted.take 3).map Prod.fst
    importance_scores := (sorted.take 3).map Prod.snd }

/-- One iteration of the paper loop in `analyze_papers`: on success the
payload is stored under the paper's title, on a raised error the failure is
logged (as a `(title, message)` event) and nothing is stored.  `extract`
abstracts `extract_key_insights` together with its fallible model calls. -/
def analyzeStep (extract : String → Except String Insights)
    (acc : List (String × LitPayload) × List (String × String)) (paper : Paper) :
    List (String × LitPayload) × List (String × String) :=
  match extract paper.content with
  | .ok insights =>
      (dictInsert paper.title ⟨insights.key_points, insights.importance_scores⟩ acc.1,
       acc.2)
  | .error e => (acc.1, acc.2 ++ [(paper.title, e)])

/-- The result-mapping component of the paper loop. -/
def analyzeResults (extract : String → Except String Insights) (papers : List Paper) :
    List (String × LitPayload) :=
  papers.foldl
    (fun m paper =>
      match extract paper.content with
      | .ok insights =>
          dictInsert paper.title ⟨insights.key_points, insights.importance_scores⟩ m
      | .error _ => m)
    []

/-- The error-log component of the paper loop. -/
def analyzeLog (extract : String → Except String Insights) (papers : List Paper) :
    List (String × String) :=
  papers.foldl
    (fun lg paper =>
      match extract paper.content with
      | .ok _ => lg
      | .error e => lg ++ [(paper.title, e)])
    []

/-- Stage `analyze_papers()`: loads the papers (the loaded collection is the
`papers` parameter), returns the empty mapping without writing anything when
no papers were found, otherwise runs the per-paper loop and saves the result
mapping as `literature_analysis.json`.  Returns the result mapping, the
failure log and the updated store. -/
def analyze_papers (extract : String → Except String Insights) (papers : List Paper)
    (s : Store) : List (String × LitPayload) × List (String × String) × Store :=
  if papers.isEmpty then ([], [], s)
  else
    let r := papers.foldl (analyzeStep extract) ([], [])
    (r.1, r.2, { s with literature_analysis := some r.1 })

/-! ## Hypothesis generator agent (`hypothesis_generator.ipynb`) -/

/-- The prompt built by `DeepSeekAPI.generate_hypothesis` around the context. -/
def hypothesisPrompt (context : String) : String :=
  "Based on the following research context, generate a novel and testable scientific hypothesis:\n\nContext:\n"
    ++ context
    ++ "\n\nPlease provide:\n1. A clear hypothesis statement\n2. The rationale behind it\n3. Potential experimental approaches to test it"

/-- Method `DeepSeekAPI.generate_hypothesis(context)`: posts the prompt to the
completions endpoint and returns the parsed JSON response; any raised error
is caught inside, logged, and turned into `None`.  `post` abstracts
`requests.post` + `raise_for_status` + `.json()`. -/
def generate_hypothesis (post : String → Except String JValue) (context : String) :
    Option JValue × List String :=
  match post (hypothesisPrompt context) with
  | .ok r => (some r, [])
  | .error e => (none, ["Error in DeepSeek API call: " ++ e])

/-- The per-paper result of the hypothesis loop: the payload stored for one
literature-analysis entry, or `none` when the API call failed or returned a
falsy value (`if result:`). -/
def hypVal (post : String → Except String JValue) (item : String × LitPayload) :
    Option HypPayload :=
  let context := String.intercalate "\n" item.2.key_insights
  match (generate_hypothesis post context).1 with
  | some result => if result.truthy then some ⟨context, result⟩ else none
  | none => none

/-- One iteration of the hypothesis loop in `generate_hypotheses`. -/
def hypStep (post : String → Except String JValue)
    (acc : List (String × HypPayload) × List String) (item : String × LitPayload) :
    List (String × HypPayload) × List String :=
  let context := String.intercalate "\n" item.2.key_insights
  match generate_hypothesis post context with
  | (some result, lg) =>
      if result.truthy then (dictInsert item.1 ⟨context, result⟩ acc.1, acc.2 ++ lg)
      else (acc.1, acc.2 ++ lg)
  | (none, lg) => (acc.1, acc.2 ++ lg)

/-- The result-mapping component of the hypothesis loop. -/
def hypResults (post : String → Except String JValue)
    (analysis : List (String × LitPayload)) : List (String × HypPayload) :=
  analysis.foldl
    (fun m item =>
      match hypVal post item with
      | some payload => dictInsert item.1 payload m
      | none => m)
    []

/-- The error-log component of the hypothesis loop (emitted from inside
`DeepSeekAPI.generate_hypothesis`). -/
def hypLog (post : String → Except String JValue)
    (analysis : List (String × LitPayload)) : List String :=
  analysis.foldl
    (fun lg item =>
      lg ++ (generate_hypothesis post (String.intercalate "\n" item.2.key_insights)).2)
    []

/-- Stage `generate_hypotheses()`: loads `literature_analysis.json` (on failure,
i.e. the artifact being absent, logs and returns the empty mapping without
writing anything), then for each entry joins its key insights with newlines
as the context, calls the DeepSeek API and stores truthy responses, and
finally saves the mapping as `generated_hypotheses.json`. -/
def generate_hypotheses (post : String → Except String JValue) (s : Store) :
    List (String × HypPayload) × List String × Store :=
  match s.literature_analysis with
  | none => ([], ["Error loading literature analysis"], s)
  | some analysis =>
      let r := analysis.foldl (hypStep post) ([], [])
      (r.1, r.2, { s with generated_hypotheses := some r.1 })

/-! ## Visualizer agent (`visualizer.ipynb`) -/

/-- Method `VisualizationGenerator.generate_visualization(prompt, output_path)`:
runs the Stable Diffusion pipeline on the prompt, saves the image, and
returns the output path; any raised error is caught, logged and turned into
`None`.  `pipelineOk` abstracts whether the external pipeline and the image
save succeed on a given prompt. -/
def generate_visualization (pipelineOk : String → Bool) (prompt : String)
    (output_path : String) : Option String :=
  if pipelineOk prompt then some output_path else none

/-- Per-item result of the first visualizer loop (over the hypotheses). -/
def visHypVal (pipelineOk : String → Bool) (item : String × HypPayload) :
    Option String :=
  let prompt :=
    "Scientific visualization of hypothesis: " ++ item.2.generated_hypothesis.serialize
  let output_path := "data/outputs/visualizations/hypothesis_" ++ item.1 ++ ".png"
  generate_visualization pipelineOk prompt output_path

/-- Per-item result of the second visualizer loop (over the experimental
analysis). -/
def visResVal (pipelineOk : String → Bool) (item : String × ExpPayload) :
    Option String :=
  let prompt := "Scientific data visualization showing relationship between "
    ++ toString item.2.feature_importance.length ++ " features"
  let output_path := "data/outputs/visualizations/results_" ++ item.1 ++ ".png"
  generate_visualization pipelineOk prompt output_path

/-- One iteration of the hypothesis-visualization loop: on success the path
is stored under the key `"hypothesis_" ++ title`. -/
def visHypStep (pipelineOk : String → Bool) (acc : List (String × String))
    (item : String × HypPayload) : List (String × String) :=
  match visHypVal pipelineOk item with
  | some p => dictInsert ("hypothesis_" ++ item.1) p acc
  | none => acc

/-- One iteration of the results-visualization loop: on success the path is
stored under the key `"results_" ++ dataset`. -/
def visResStep (pipelineOk : String → Bool) (acc : List (String × String))
    (item : String × ExpPayload) : List (String × String) :=
  match visResVal pipelineOk item with
  | some p => dictInsert ("results_" ++ item.1) p acc
  | none => acc

/-- Stage `generate_visualizations()`: loads `generated_hypotheses.json` and
`experimental_analysis.json` (if either is absent the raised error is caught
and the empty mapping is returned without writing anything), runs the two
visualization loops, and writes the collected path mapping as
`visualization_metadata.json`. -/
def generate_visualizations (pipelineOk : String → Bool) (s : Store) :
    List (String × String) × Store :=
  match s.generated_hypotheses, s.experimental_analysis with
  | some hyps, some analysis =>
      let r1 := hyps.foldl (visHypStep pipelineOk) []
      let r2 := analysis.foldl (visResStep pipelineOk) r1
      (r2, { s with visualization_metadata := some r2 })
  | _, _ => ([], s)

/-! ## Whole-stage store transformers (for re-run properties) -/

/-- The store after one run of the literature stage. -/
def runLiterature (extract : String → Except String Insights) (papers : List Paper)
    (s : Store) : Store :=
  (analyze_papers extract papers s).2.2

/-- The store after one run of the hypothesis stage. -/
def runHypothesis (post : String → Except String JValue) (s : Store) : Store :=
  (generate_hypotheses post s).2.2

/-- The store after one run of the visualization stage. -/
def runVisualization (pipelineOk : String → Bool) (s : Store) : Store :=
  (generate_visualizations pipelineOk s).2

/-! ## Serialization of artifacts -/

/-- JSON form of a literature-analysis payload as written by `save_json`. -/
def LitPayload.toJson (p : LitPayload) : JValue :=
  .obj [("key_insights", .arr (p.key_insights.map .str)),
        ("importance_scores", .arr (p.importance_scores.map .num))]

/-- JSON form of a generated-hypotheses payload. -/
def HypPayload.toJson (p : HypPayload) : JValue :=
  .obj [("context", .str p.context), ("generated_hypothesis", p.generated_hypothesis)]

/-- Serialized bytes of the `generated_hypotheses.json` artifact. -/
def serializeHypotheses (m : List (String × HypPayload)) : String :=
  (JValue.obj (m.map (fun p => (p.1, p.2.toJson)))).serialize

/-- Serialized bytes of the `visualization_metadata.json` artifact, as
passed to `json.dump`. -/
def serializeVisMetadata (m : List (String × String)) : String :=
  (JValue.obj (m.map (fun p => (p.1, .str p.2)))).serialize

/-! ## File-level model of the metadata write

`generate_visualizations` persists the metadata with
`with open(metadata_path, "w") as f: json.dump(visualization_results, f, indent=2)`:
opening with mode `"w"` truncates the file in place, then the serialized text
is written incrementally.  We model the observable file contents through the
individual file-system operations. -/

/-- A file-system operation performed on the target file during a write. -/
inductive WriteOp where
  | truncate
  | append (chunk : String)

/-- Effect of one operation on the file's observable content (`none` =
absent file). -/
def applyOp (file : Option String) : WriteOp → Option String
  | .truncate => some ""
  | .append c =>
      match file with
      | none => none
      | some s => some (s ++ c)

/-- The operations performed by `open(path, "w")` + `json.dump`: truncate,
then append the serialized text (taken at the finest granularity, one
character per write). -/
def directWriteOps (content : String) : List WriteOp :=
  .truncate :: content.toList.map (fun c => .append (String.mk [c]))

/-- The file content after a sequence of operations applied to a prior
content. -/
def fileAfter (prior : Option String) (ops : List WriteOp) : Option String :=
  ops.foldl applyOp prior

/-! ## Per-item values and log entries of each loop, as option-valued maps -/

/-- Per-paper result of the literature loop: the stored payload, or `none`
when the transform raised. -/
def litVal (extract : String → Except String Insights) (p : Paper) :
    Option LitPayload :=
  match extract p.content with
  | .ok insights => some ⟨insights.key_points, insights.importance_scores⟩
  | .error _ => none

/-- Per-paper log entries of the literature loop. -/
def litEntries (extract : String → Except String Insights) (p : Paper) :
    List (String × String) :=
  match extract p.content with
  | .ok _ => []
  | .error e => [(p.title, e)]

/-- Per-item log entries of the hypothesis loop. -/
def hypEntries (post : String → Except String JValue) (item : String × LitPayload) :
    List String :=
  (generate_hypothesis post (String.intercalate "\n" item.2.key_insights)).2

/-! ## Helper lemmas -/

/-- A left fold whose step acts componentwise on a pair splits into two
independent folds. -/
theorem foldl_pair {α β γ : Type _} (step : α × β → γ → α × β) (f : α → γ → α)
    (g : β → γ → β) (hstep : ∀ a b x, step (a, b) x = (f a x, g b x)) :
    ∀ (l : List γ) (a : α) (b : β),
      l.foldl step (a, b) = (l.foldl f a, l.foldl g b) := by
  intro l
  induction l with
  | nil => intro a b; rfl
  | cons x t ih => intro a b; simp only [List.foldl_cons, hstep]; exact ih _ _

/-- Inserting under a fresh key appends the pair at the end. -/
theorem dictInsert_of_not_mem {κ β : Type} [DecidableEq κ] (k : κ) (v : β)
    (m : List (κ × β)) (h : k ∉ m.map Prod.fst) :
    dictInsert k v m = m ++ [(k, v)] := by
  have hfalse : (m.any fun p => p.1 = k) = false := by
    rw [List.any_eq_false]
    intro p hp
    simp only [decide_eq_true_eq]
    intro hpk
    exact h (hpk ▸ List.mem_map_of_mem Prod.fst hp)
  unfold dictInsert
  rw [hfalse]
  simp

/-- Looking up a key at the head of the dictionary. -/
theorem dictGet_cons_self {κ β : Type} [DecidableEq κ] (k : κ) (v : β)
    (m : List (κ × β)) : dictGet k ((k, v) :: m) = some v := by
  simp [dictGet, List.find?]

/-- Lookup skips a head entry with a different key. -/
theorem dictGet_cons_ne {κ β : Type} [DecidableEq κ] (k : κ) (p : κ × β)
    (m : List (κ × β)) (h : p.1 ≠ k) : dictGet k (p :: m) = dictGet k m := by
  simp [dictGet, List.find?, h]

/-- An item on which the step is the identity can be dropped from the fold. -/
theorem foldl_ignore {α γ : Type _} (step : α → γ → α) (p : γ)
    (hp : ∀ a, step a p = a) (pre post : List γ) (a : α) :
    (pre ++ p :: post).foldl step a = (pre ++ post).foldl step a := by
  simp [List.foldl_append, List.foldl_cons, hp]

/-- A fold that conditionally `dictInsert`s one entry per item builds the
`filterMap` of the per-item values, appended to the accumulator, provided
the keys are distinct and fresh. -/
theorem foldl_insert {κ β γ : Type} [DecidableEq κ]
    (step : List (κ × β) → γ → List (κ × β)) (key : γ → κ) (val : γ → Option β)
    (hstep : ∀ m x, step m x =
      match val x with
      | some v => dictInsert (key x) v m
      | none => m) :
    ∀ (l : List γ) (acc : List (κ × β)),
      (l.map key).Nodup → (∀ x ∈ l, key x ∉ acc.map Prod.fst) →
      l.foldl step acc
        = acc ++ l.filterMap (fun x => (val x).map (fun v => (key x, v))) := by
  intro l
  induction l with
  | nil => intro acc _ _; simp
  | cons x t ih =>
      intro acc hN hD
      rw [List.map_cons, List.nodup_cons] at hN
      cases hval : val x with
      | none =>
          have hred : step acc x = acc := by rw [hstep, hval]
          rw [List.foldl_cons, hred,
            ih acc hN.2 (fun y hy => hD y (List.mem_cons_of_mem x hy))]
          simp [hval]
      | some v =>
          have hred : step acc x = dictInsert (key x) v acc := by rw [hstep, hval]
          have hfresh : ∀ y ∈ t, key y ∉ (acc ++ [(key x, v)]).map Prod.fst := by
            intro y hy
            simp only [List.map_append, List.mem_append, List.map_cons, List.map_nil]
            rintro (hmem | hmem)
            · exact hD y (List.mem_cons_of_mem x hy) hmem
            · simp only [List.mem_singleton] at hmem
              exact hN.1 (hmem ▸ List.mem_map_of_mem key hy)
          rw [List.foldl_cons, hred,
            dictInsert_of_not_mem _ _ _ (hD x (List.mem_cons_self x t)),
            ih (acc ++ [(key x, v)]) hN.2 hfresh]
          simp [hval]

/-- A fold that conditionally `dictInsert`s does nothing when every per-item
value is `none`. -/
theorem foldl_insert_none {κ β γ : Type} [DecidableEq κ]
    (step : List (κ × β) → γ → List (κ × β)) (key : γ → κ) (val : γ → Option β)
    (hstep : ∀ m x, step m x =
      match val x with
      | some v => dictInsert (key x) v m
      | none => m) :
    ∀ (l : List γ) (acc : List (κ × β)), (∀ x ∈ l, val x = none) →
      l.foldl step acc = acc := by
  intro l
  induction l with
  | nil => intro acc _; rfl
  | cons x t ih =>
      intro acc h
      have hred : step acc x = acc := by rw [hstep, h x (List.mem_cons_self x t)]
      rw [List.foldl_cons, hred]
      exact ih acc fun y hy => h y (List.mem_cons_of_mem x hy)

/-- A fold that appends per-item events to a log collects the `flatMap` of
the events. -/
theorem foldl_entries {γ δ : Type _} (step : List δ → γ → List δ) (f : γ → List δ)
    (hstep : ∀ lg x, step lg x = lg ++ f x) :
    ∀ (l : List γ) (b : List δ), l.foldl step b = b ++ l.flatMap f := by
  intro l
  induction l with
  | nil => intro b; simp
  | cons x t ih => intro b; rw [List.foldl_cons, hstep, ih]; simp

/-- Looking a key up in the mapping built from distinct-keyed items returns
exactly that item's per-item value. -/
theorem dictGet_filterMap {κ β γ : Type} [DecidableEq κ] (key : γ → κ)
    (val : γ → Option β) :
    ∀ (l : List γ), (l.map key).Nodup → ∀ x ∈ l,
      dictGet (key x) (l.filterMap (fun y => (val y).map (fun v => (key y, v))))
        = val x := by
  have hnone : ∀ (l : List γ) (k : κ), k ∉ l.map key →
      dictGet k (l.filterMap (fun y => (val y).map (fun v => (key y, v))))
        = none := by
    intro l k hk
    have hfind : (l.filterMap (fun y => (val y).map (fun v => (key y, v)))).find?
        (fun p => p.1 = k) = none := by
      rw [List.find?_eq_none]
      intro p hp
      rcases List.mem_filterMap.mp hp with ⟨y, hy, hpy⟩
      cases hval : val y with
      | none => rw [hval] at hpy; exact absurd hpy (by simp)
      | some v =>
          rw [hval] at hpy
          simp only [Option.map_some', Option.some.injEq] at hpy
          subst hpy
          simp only [decide_eq_true_eq]
          intro hkk
          exact hk (hkk ▸ List.mem_map_of_mem key hy)
    simp [dictGet, hfind]
  intro l
  induction l with
  | nil => intro _ x hx; exact absurd hx (List.not_mem_nil x)
  | cons y t ih =>
      intro hN x hx
      rw [List.map_cons, List.nodup_cons] at hN
      rcases List.mem_cons.mp hx with rfl | hxt
      · cases hval : val x with
        | some v =>
            simp only [List.filterMap_cons, hval, Option.map_some']
            rw [dictGet_cons_self]
        | none =>
            simp only [List.filterMap_cons, hval, Option.map_none']
            rw [hnone t (key x) hN.1]
      · have hne : key x ≠ key y := by
          intro h
          exact hN.1 (h ▸ List.mem_map_of_mem key hxt)
        cases hval : val y with
        | some v =>
            simp only [List.filterMap_cons, hval, Option.map_some']
            rw [dictGet_cons_ne _ _ _ hne.symm]
            exact ih hN.2 x hxt
        | none =>
            simp only [List.filterMap_cons, hval, Option.map_none']
            exact ih hN.2 x hxt

/-! ## Bridge lemmas: each stage loop, componentwise and pointwise -/

/-- The paper loop splits into its result-mapping and log components. -/
theorem analyze_loop_eq (extract : String → Except String Insights)
    (papers : List Paper) :
    papers.foldl (analyzeStep extract) ([], [])
      = (analyzeResults extract papers, analyzeLog extract papers) := by
  rw [analyzeResults, analyzeLog]
  exact foldl_pair _ _ _
    (fun a b x => by cases h : extract x.content <;> simp [analyzeStep, h]) papers [] []

/-- Unfolding `analyze_papers` on a non-empty collection, in terms of the loop
components. -/
theorem analyze_papers_eq (extract : String → Except String Insights)
    (papers : List Paper) (s : Store) (h : papers ≠ []) :
    analyze_papers extract papers s
      = (analyzeResults extract papers, analyzeLog extract papers,
         { s with literature_analysis := some (analyzeResults extract papers) }) := by
  have hne : papers.isEmpty = false := by
    cases papers with
    | nil => exact absurd rfl h
    | cons a t => rfl
  rw [analyze_papers, hne]
  simp only [Bool.false_eq_true, if_false, analyze_loop_eq]

/-- The result mapping of the paper loop is the `filterMap` of the per-paper
values (input titles assumed distinct, as keys of one artifact are). -/
theorem analyzeResults_eq (extract : String → Except String Insights)
    (papers : List Paper) (h : (papers.map Paper.title).Nodup) :
    analyzeResults extract papers
      = papers.filterMap (fun p => (litVal extract p).map (fun v => (p.title, v))) := by
  rw [analyzeResults]
  exact foldl_insert _ Paper.title (litVal extract)
    (fun m x => by cases hx : extract x.content <;> simp [litVal, hx])
    papers [] h (by simp)

/-- The log of the paper loop is the concatenation of the per-paper events. -/
theorem analyzeLog_eq (extract : String → Except String Insights)
    (papers : List Paper) :
    analyzeLog extract papers = papers.flatMap (litEntries extract) := by
  rw [analyzeLog]
  exact foldl_entries _ (litEntries extract)
    (fun lg x => by cases hx : extract x.content <;> simp [litEntries, hx]) papers []

/-- One step of the hypothesis loop, componentwise. -/
theorem hypStep_eq (post : String → Except String JValue)
    (a : List (String × HypPayload)) (b : List String) (x : String × LitPayload) :
    hypStep post (a, b) x =
      ((match hypVal post x with
        | some payload => dictInsert x.1 payload a
        | none => a),
       b ++ hypEntries post x) := by
  rw [hypStep, hypVal, hypEntries]
  cases h : post (hypothesisPrompt (String.intercalate "\n" x.2.key_insights)) with
  | ok r =>
      by_cases ht : r.truthy <;> simp [generate_hypothesis, h, ht]
  | error e => simp [generate_hypothesis, h]

/-- The hypothesis loop splits into its result-mapping and log components. -/
theorem hyp_loop_eq (post : String → Except String JValue)
    (analysis : List (String × LitPayload)) :
    analysis.foldl (hypStep post) ([], [])
      = (hypResults post analysis, hypLog post analysis) := by
  rw [hypResults, hypLog]
  exact foldl_pair _ _ _ (fun a b x => hypStep_eq post a b x) analysis [] []

/-- Unfolding `generate_hypotheses` on a present input artifact, in terms of the loop
components. -/
theorem generate_hypotheses_eq (post : String → Except String JValue) (s : Store)
    (analysis : List (String × LitPayload))
    (h : s.literature_analysis = some analysis) :
    generate_hypotheses post s
      = (hypResults post analysis, hypLog post analysis,
         { s with generated_hypotheses := some (hypResults post analysis) }) := by
  rw [generate_hypotheses, h]
  simp only [hyp_loop_eq]

/-- The result mapping of the hypothesis loop is the `filterMap` of the
per-item values (input keys assumed distinct). -/
theorem hypResults_eq (post : String → Except String JValue)
    (analysis : List (String × LitPayload))
    (h : (analysis.map Prod.fst).Nodup) :
    hypResults post analysis
      = analysis.filterMap
          (fun x => (hypVal post x).map (fun v => (x.1, v))) := by
  rw [hypResults]
  exact foldl_insert _ Prod.fst (hypVal post)
    (fun m x => by cases hx : hypVal post x <;> simp [hx]) analysis [] h (by simp)

/-- The log of the hypothesis loop is the concatenation of the per-item
events. -/
theorem hypLog_eq (post : String → Except String JValue)
    (analysis : List (String × LitPayload)) :
    hypLog post analysis = analysis.flatMap (hypEntries post) := by
  rw [hypLog]
  exact foldl_entries _ (hypEntries post) (fun lg x => by rw [hypEntries]) analysis []

/-- The first visualizer loop is the `filterMap` of its per-item values
(input keys assumed distinct, fresh relative to the accumulator). -/
theorem visHyp_loop_eq (pipelineOk : String → Bool)
    (hyps : List (String × HypPayload)) (acc : List (String × String))
    (hN : (hyps.map (fun x => "hypothesis_" ++ x.1)).Nodup)
    (hD : ∀ x ∈ hyps, ("hypothesis_" ++ x.1) ∉ acc.map Prod.fst) :
    hyps.foldl (visHypStep pipelineOk) acc
      = acc ++ hyps.filterMap
          (fun x => (visHypVal pipelineOk x).map
            (fun v => ("hypothesis_" ++ x.1, v))) :=
  foldl_insert _ (fun x => "hypothesis_" ++ x.1) (visHypVal pipelineOk)
    (fun m x => by cases hx : visHypVal pipelineOk x <;> simp [visHypStep, hx])
    hyps acc hN hD

/-- The second visualizer loop is the `filterMap` of its per-item values. -/
theorem visRes_loop_eq (pipelineOk : String → Bool)
    (analysis : List (String × ExpPayload)) (acc : List (String × String))
    (hN : (analysis.map (fun x => "results_" ++ x.1)).Nodup)
    (hD : ∀ x ∈ analysis, ("results_" ++ x.1) ∉ acc.map Prod.fst) :
    analysis.foldl (visResStep pipelineOk) acc
      = acc ++ analysis.filterMap
          (fun x => (visResVal pipelineOk x).map
            (fun v => ("results_" ++ x.1, v))) :=
  foldl_insert _ (fun x => "results_" ++ x.1) (visResVal pipelineOk)
    (fun m x => by cases hx : visResVal pipelineOk x <;> simp [visResStep, hx])
    analysis acc hN hD

/-! ## Claims -/

/-- C1: a failure (raised error) while transforming one item never prevents
the remaining items from being attempted and never aborts the batch.  In the
literature loop (`analyze_papers`) a paper whose transform raises contributes
nothing to the result mapping and one log event, and every other item — in
particular every subsequent one — is processed exactly as it would be without
the failing item; likewise in the hypothesis loop (`generate_hypotheses`),
where the raised error is caught inside `DeepSeekAPI.generate_hypothesis`,
logged, and turned into a skip. -/
theorem item_failure_isolated
    (extract : String → Except String Insights) (post : String → Except String JValue)
    (pre post' : List Paper) (p : Paper) (e : String)
    (hfail : extract p.content = .error e)
    (pre₂ post₂ : List (String × LitPayload)) (a : String × LitPayload) (e₂ : String)
    (hfail₂ : post (hypothesisPrompt (String.intercalate "\n" a.2.key_insights))
      = .error e₂) :
    (analyzeResults extract (pre ++ p :: post') = analyzeResults extract (pre ++ post')
      ∧ analyzeLog extract (pre ++ p :: post')
          = analyzeLog extract pre ++ (p.title, e) :: analyzeLog extract post')
    ∧ hypResults post (pre₂ ++ a :: post₂) = hypResults post (pre₂ ++ post₂)
    ∧ hypLog post (pre₂ ++ a :: post₂)
        = hypLog post pre₂ ++ ("Error in DeepSeek API call: " ++ e₂)
            :: hypLog post post₂ := by
  have hval : hypVal post a = none := by
    rw [hypVal]
    simp [generate_hypothesis, hfail₂]
  refine ⟨⟨?_, ?_⟩, ?_, ?_⟩
  · rw [analyzeResults, analyzeResults]
    exact foldl_ignore _ p (fun m => by simp [hfail]) pre post' []
  · rw [analyzeLog_eq, analyzeLog_eq, analyzeLog_eq, List.flatMap_append,
      List.flatMap_cons]
    simp [litEntries, hfail]
  · rw [hypResults, hypResults]
    exact foldl_ignore _ a (fun m => by simp [hval]) pre₂ post₂ []
  · rw [hypLog_eq, hypLog_eq, hypLog_eq, List.flatMap_append, List.flatMap_cons]
    simp [hypEntries, generate_hypothesis, hfail₂]

/-- C1 witness: with a transform that raises exactly on paper `"B"`, the
result mapping over `[A, B, C]` equals the one over `[A, C]`. -/
theorem item_failure_isolated_witness :
    analyzeResults (fun c => if c = "bad" then .error "boom" else .ok ⟨["i"], [1]⟩)
        ([⟨"A", "x"⟩] ++ ⟨"B", "bad"⟩ :: [⟨"C", "y"⟩])
      = analyzeResults (fun c => if c = "bad" then .error "boom" else .ok ⟨["i"], [1]⟩)
        ([⟨"A", "x"⟩] ++ [⟨"C", "y"⟩]) :=
  (item_failure_isolated
    (fun c => if c = "bad" then .error "boom" else .ok ⟨["i"], [1]⟩)
    (fun _ => .error "api down")
    [⟨"A", "x"⟩] [⟨"C", "y"⟩] ⟨"B", "bad"⟩ "boom" rfl
    [] [] ("K", ⟨["i"], [1]⟩) "api down" rfl).1.1

/-- C2: a stage whose required primary input is absent fails fast and writes
no output artifact: the literature stage returns the empty mapping and leaves
the store untouched when no papers were found, the hypothesis stage does so
when `literature_analysis.json` is absent, and the visualization stage —
in particular with `generated_hypotheses.json` present but
`experimental_analysis.json` absent — returns the empty mapping and neither
writes nor modifies `visualization_metadata.json` (the store is unchanged). -/
theorem missing_input_fails_fast
    (extract : String → Except String Insights) (post : String → Except String JValue)
    (pipelineOk : String → Bool) (s : Store) (papers : List Paper)
    (h : List (String × HypPayload)) :
    (papers = [] → analyze_papers extract papers s = ([], [], s))
    ∧ (s.literature_analysis = none →
        (generate_hypotheses post s).1 = [] ∧ (generate_hypotheses post s).2.2 = s)
    ∧ (s.generated_hypotheses = some h → s.experimental_analysis = none →
        (generate_visualizations pipelineOk s).1 = []
          ∧ (generate_visualizations pipelineOk s).2 = s) := by
  refine ⟨?_, ?_, ?_⟩
  · rintro rfl
    rfl
  · intro hl
    rw [generate_hypotheses, hl]
    exact ⟨rfl, rfl⟩
  · intro hg he
    rw [generate_visualizations, hg, he]
    exact ⟨rfl, rfl⟩

/-- C2 witness: on a store holding hypotheses and a prior metadata artifact
but no experimental analysis, each stage with a missing primary input leaves
the store exactly as it was. -/
theorem missing_input_fails_fast_witness :
    analyze_papers (fun _ => .ok ⟨[], []⟩) []
        ⟨none, some [("A", ⟨"c", .str "h"⟩)], none, some [("old", "o.png")]⟩
      = ([], [], ⟨none, some [("A", ⟨"c", .str "h"⟩)], none, some [("old", "o.png")]⟩)
    ∧ (generate_hypotheses (fun _ => .ok .null)
        ⟨none, some [("A", ⟨"c", .str "h"⟩)], none, some [("old", "o.png")]⟩).2.2
      = ⟨none, some [("A", ⟨"c", .str "h"⟩)], none, some [("old", "o.png")]⟩
    ∧ (generate_visualizations (fun _ => true)
        ⟨none, some [("A", ⟨"c", .str "h"⟩)], none, some [("old", "o.png")]⟩).2
      = ⟨none, some [("A", ⟨"c", .str "h"⟩)], none, some [("old", "o.png")]⟩ :=
  ⟨(missing_input_fails_fast (fun _ => .ok ⟨[], []⟩) (fun _ => .ok .null) (fun _ => true)
      ⟨none, some [("A", ⟨"c", .str "h"⟩)], none, some [("old", "o.png")]⟩ []
      [("A", ⟨"c", .str "h"⟩)]).1 rfl,
   ((missing_input_fails_fast (fun _ => .ok ⟨[], []⟩) (fun _ => .ok .null) (fun _ => true)
      ⟨none, some [("A", ⟨"c", .str "h"⟩)], none, some [("old", "o.png")]⟩ []
      [("A", ⟨"c", .str "h"⟩)]).2.1 rfl).2,
   ((missing_input_fails_fast (fun _ => .ok ⟨[], []⟩) (fun _ => .ok .null) (fun _ => true)
      ⟨none, some [("A", ⟨"c", .str "h"⟩)], none, some [("old", "o.png")]⟩ []
      [("A", ⟨"c", .str "h"⟩)]).2.2 rfl rfl).2⟩

/-- Per-item count bookkeeping: a fold over items each contributing either
one mapping entry or one log event conserves the total. -/
theorem length_filterMap_add_flatMap {γ δ₁ δ₂ : Type _} (f : γ → Option δ₁)
    (g : γ → List δ₂) (h : ∀ x, (f x).toList.length + (g x).length = 1) :
    ∀ l : List γ, (l.filterMap f).length + (l.flatMap g).length = l.length := by
  intro l
  induction l with
  | nil => rfl
  | cons x t ih =>
      rw [List.filterMap_cons, List.flatMap_cons]
      have hx := h x
      cases hfx : f x with
      | none =>
          rw [hfx] at hx
          simp only [Option.toList_none, List.length_nil, Nat.zero_add] at hx
          simp only [List.length_append, List.length_cons, hx]
          omega
      | some v =>
          rw [hfx] at hx
          simp only [Option.toList_some, List.length_singleton] at hx
          simp only [List.length_append, List.length_cons]
          omega

/-- C3: with the artifact invariant that item keys are distinct, every item
of the input collection is either processed — its key appears in the output
mapping — or skipped — one failure event is logged and its key is absent —
and `processed_count + skipped_count` equals the number of input items. -/
theorem processed_skipped_conservation
    (extract : String → Except String Insights) (papers : List Paper)
    (hN : (papers.map Paper.title).Nodup) :
    (analyzeResults extract papers).length + (analyzeLog extract papers).length
        = papers.length
    ∧ ∀ p ∈ papers,
        ((litVal extract p).isSome = true →
            p.title ∈ (analyzeResults extract papers).map Prod.fst)
        ∧ (litVal extract p = none →
            p.title ∉ (analyzeResults extract papers).map Prod.fst) := by
  have hchar := analyzeResults_eq extract papers hN
  constructor
  · rw [hchar, analyzeLog_eq]
    refine length_filterMap_add_flatMap _ _ ?_ papers
    intro x
    rw [litVal, litEntries]
    cases hx : extract x.content <;> simp
  · intro p hp
    constructor
    · intro hsome
      rcases Option.isSome_iff_exists.mp hsome with ⟨v, hv⟩
      have hmem : (p.title, v) ∈ papers.filterMap
          (fun q => (litVal extract q).map (fun w => (q.title, w))) :=
        List.mem_filterMap.mpr ⟨p, hp, by rw [hv]; rfl⟩
      rw [hchar]
      exact List.mem_map_of_mem Prod.fst hmem
    · intro hnone hmem
      rw [hchar] at hmem
      rcases List.mem_map.mp hmem with ⟨pair, hpair, hfst⟩
      rcases List.mem_filterMap.mp hpair with ⟨q, hq, hval⟩
      cases hvq : litVal extract q with
      | none => rw [hvq] at hval; exact absurd hval (by simp)
      | some v =>
          rw [hvq] at hval
          simp only [Option.map_some', Option.some.injEq] at hval
          have hqt : q.title = p.title := by rw [← hfst, ← hval]
          have : q = p := List.inj_on_of_nodup_map hN hq hp hqt
          rw [this, hnone] at hvq
          exact absurd hvq (by simp)

/-- C3 witness: two papers, the transform failing on `"B"`: one processed,
one skipped, `1 + 1 = 2`, and `"B"` is absent from the output keys. -/
theorem processed_skipped_conservation_witness :
    ((analyzeResults (fun c => if c = "bad" then .error "boom" else .ok ⟨["i"], [1]⟩)
          [⟨"A", "x"⟩, ⟨"B", "bad"⟩]).length
        + (analyzeLog (fun c => if c = "bad" then .error "boom" else .ok ⟨["i"], [1]⟩)
          [⟨"A", "x"⟩, ⟨"B", "bad"⟩]).length = 2)
    ∧ "B" ∉ (analyzeResults (fun c => if c = "bad" then .error "boom" else .ok ⟨["i"], [1]⟩)
          [⟨"A", "x"⟩, ⟨"B", "bad"⟩]).map Prod.fst :=
  ⟨(processed_skipped_conservation
      (fun c => if c = "bad" then .error "boom" else .ok ⟨["i"], [1]⟩)
      [⟨"A", "x"⟩, ⟨"B", "bad"⟩] (by decide)).1,
   ((processed_skipped_conservation
      (fun c => if c = "bad" then .error "boom" else .ok ⟨["i"], [1]⟩)
      [⟨"A", "x"⟩, ⟨"B", "bad"⟩] (by decide)).2 ⟨"B", "bad"⟩ (by decide)).2 (by decide)⟩

/-- Appending to a fixed string on the left is injective. -/
theorem string_append_left_cancel {a b c : String} (h : a ++ b = a ++ c) :
    b = c := by
  have hd : a.data ++ b.data = a.data ++ c.data := congrArg String.data h
  exact String.ext (List.append_cancel_left hd)

/-- The two visualizer key namespaces never collide. -/
theorem hyp_results_key_ne (a b : String) :
    "hypothesis_" ++ a ≠ "results_" ++ b := by
  intro h
  have hd : ("hypothesis_" ++ a).data = ("results_" ++ b).data :=
    congrArg String.data h
  have h1 : ("hypothesis_" ++ a).data = 'h' :: ("ypothesis_" ++ a).data := rfl
  have h2 : ("results_" ++ b).data = 'r' :: ("esults_" ++ b).data := rfl
  rw [h1, h2] at hd
  exact absurd (List.head_eq_of_cons_eq hd) (by decide)

/-- When every per-item value is produced, the built mapping's keys are the
item keys in order. -/
theorem map_fst_filterMap_of_isSome {κ β γ : Type _} (key : γ → κ)
    (val : γ → Option β) (l : List γ) (h : ∀ x ∈ l, (val x).isSome = true) :
    (l.filterMap (fun x => (val x).map (fun v => (key x, v)))).map Prod.fst
      = l.map key := by
  induction l with
  | nil => rfl
  | cons x t ih =>
      rw [List.filterMap_cons]
      cases hx : val x with
      | none =>
          exact absurd (h x (List.mem_cons_self x t)) (by simp [hx])
      | some v =>
          simp only [Option.map_some', List.map_cons]
          rw [ih (fun y hy => h y (List.mem_cons_of_mem x hy))]

/-- C4, as stated, is false for the visualization stage: its output keys are
the input keys prefixed with `"hypothesis_"` / `"results_"`, not the input
keys themselves.  Concrete counterexample: one hypothesis keyed `"A"`, an
always-succeeding transform — the output key list is `["hypothesis_A"]`,
while the primary input key list is `["A"]`. -/
theorem key_preservation_counterexample :
    ((generate_visualizations (fun _ => true)
        ⟨none, some [("A", ⟨"c", .str "h"⟩)], some [], none⟩).1.map Prod.fst
      = ["hypothesis_A"])
    ∧ ((⟨none, some [("A", ⟨"c", .str "h"⟩)], some [], none⟩ :
          Store).generated_hypotheses.getD []).map Prod.fst = ["A"]
    ∧ (["hypothesis_A"] : List String) ≠ ["A"] :=
  ⟨rfl, rfl, by decide⟩

/-- C4 amended: with an always-successful non-empty transform and the
artifact key-uniqueness invariant, the hypothesis stage preserves the key
list exactly (no drift, no duplication); the visualization stage instead
produces the keys of its two inputs under the injective, namespace-disjoint
markings `"hypothesis_" ++ ·` and `"results_" ++ ·` — traceable to the
inputs, without duplication, but not equal to the input key set. -/
theorem key_preservation_amended
    (post : String → Except String JValue) (pipelineOk : String → Bool) (s : Store)
    (lit : List (String × LitPayload)) (hyps : List (String × HypPayload))
    (analysis : List (String × ExpPayload))
    (hpost : ∀ c, ∃ r, post c = .ok r ∧ r.truthy = true)
    (hok : ∀ prompt, pipelineOk prompt = true)
    (hlit : s.literature_analysis = some lit)
    (hhyp : s.generated_hypotheses = some hyps)
    (hexp : s.experimental_analysis = some analysis)
    (hNlit : (lit.map Prod.fst).Nodup)
    (hNhyp : (hyps.map Prod.fst).Nodup)
    (hNexp : (analysis.map Prod.fst).Nodup) :
    (generate_hypotheses post s).1.map Prod.fst = lit.map Prod.fst
    ∧ (generate_visualizations pipelineOk s).1.map Prod.fst
        = hyps.map (fun x => "hypothesis_" ++ x.1)
          ++ analysis.map (fun x => "results_" ++ x.1)
    ∧ ((generate_visualizations pipelineOk s).1.map Prod.fst).Nodup := by
  have hinj₁ : Function.Injective (fun t : String => "hypothesis_" ++ t) :=
    fun _ _ h => string_append_left_cancel h
  have hinj₂ : Function.Injective (fun t : String => "results_" ++ t) :=
    fun _ _ h => string_append_left_cancel h
  have hNkeys₁ : (hyps.map (fun x => "hypothesis_" ++ x.1)).Nodup := by
    have : hyps.map (fun x => "hypothesis_" ++ x.1)
        = (hyps.map Prod.fst).map (fun t => "hypothesis_" ++ t) := by
      rw [List.map_map]; rfl
    rw [this]
    exact hNhyp.map hinj₁
  have hNkeys₂ : (analysis.map (fun x => "results_" ++ x.1)).Nodup := by
    have : analysis.map (fun x => "results_" ++ x.1)
        = (analysis.map Prod.fst).map (fun t => "results_" ++ t) := by
      rw [List.map_map]; rfl
    rw [this]
    exact hNexp.map hinj₂
  have hvalHyp : ∀ x ∈ hyps, (visHypVal pipelineOk x).isSome = true := by
    intro x _
    rw [visHypVal, generate_visualization, hok]
    rfl
  have hvalRes : ∀ x ∈ analysis, (visResVal pipelineOk x).isSome = true := by
    intro x _
    rw [visResVal, generate_visualization, hok]
    rfl
  have hr1 : hyps.foldl (visHypStep pipelineOk) []
      = hyps.filterMap
          (fun x => (visHypVal pipelineOk x).map (fun v => ("hypothesis_" ++ x.1, v))) := by
    rw [visHyp_loop_eq pipelineOk hyps [] hNkeys₁ (by simp)]
    rfl
  have hfst1 : (hyps.foldl (visHypStep pipelineOk) []).map Prod.fst
      = hyps.map (fun x => "hypothesis_" ++ x.1) := by
    rw [hr1]
    exact map_fst_filterMap_of_isSome _ _ hyps hvalHyp
  have hfresh : ∀ x ∈ analysis,
      ("results_" ++ x.1) ∉ (hyps.foldl (visHypStep pipelineOk) []).map Prod.fst := by
    intro x _
    rw [hfst1]
    intro hmem
    rcases List.mem_map.mp hmem with ⟨y, _, hy⟩
    exact hyp_results_key_ne y.1 x.1 hy
  have hr2 : (generate_visualizations pipelineOk s).1
      = hyps.foldl (visHypStep pipelineOk) []
        ++ analysis.filterMap
            (fun x => (visResVal pipelineOk x).map (fun v => ("results_" ++ x.1, v))) := by
    rw [generate_visualizations, hhyp, hexp]
    exact visRes_loop_eq pipelineOk analysis _ hNkeys₂ hfresh
  refine ⟨?_, ?_, ?_⟩
  · have hvalLit : ∀ x ∈ lit, (hypVal post x).isSome = true := by
      intro x _
      rcases hpost (hypothesisPrompt (String.intercalate "\n" x.2.key_insights))
        with ⟨r, hr, ht⟩
      rw [hypVal]
      simp [generate_hypothesis, hr, ht]
    rw [generate_hypotheses_eq post s lit hlit]
    rw [hypResults_eq post lit hNlit]
    exact map_fst_filterMap_of_isSome _ _ lit hvalLit
  · rw [hr2, List.map_append, hfst1]
    congr 1
    exact map_fst_filterMap_of_isSome _ _ analysis hvalRes
  · rw [hr2, List.map_append, hfst1,
      map_fst_filterMap_of_isSome _ _ analysis hvalRes]
    rw [List.nodup_append]
    refine ⟨hNkeys₁, hNkeys₂, ?_⟩
    intro k hk₁ hk₂
    rcases List.mem_map.mp hk₁ with ⟨y, _, hy⟩
    rcases List.mem_map.mp hk₂ with ⟨z, _, hz⟩
    exact hyp_results_key_ne y.1 z.1 (hy.trans hz.symm)

/-- C4 witness: one hypothesis and one dataset, everything succeeding — the
hypothesis stage preserves keys and the visualizer's keys are the two
markings, distinct. -/
theorem key_preservation_amended_witness :
    (generate_hypotheses (fun _ => .ok (.str "h"))
        ⟨some [("A", ⟨["i"], [1]⟩)], some [("A", ⟨"c", .str "h"⟩)],
         some [("D", ⟨[("f", 1)]⟩)], none⟩).1.map Prod.fst = ["A"]
    ∧ (generate_visualizations (fun _ => true)
        ⟨some [("A", ⟨["i"], [1]⟩)], some [("A", ⟨"c", .str "h"⟩)],
         some [("D", ⟨[("f", 1)]⟩)], none⟩).1.map Prod.fst
      = ["hypothesis_A", "results_D"] :=
  ⟨(key_preservation_amended (fun _ => .ok (.str "h")) (fun _ => true)
      ⟨some [("A", ⟨["i"], [1]⟩)], some [("A", ⟨"c", .str "h"⟩)],
       some [("D", ⟨[("f", 1)]⟩)], none⟩
      [("A", ⟨["i"], [1]⟩)] [("A", ⟨"c", .str "h"⟩)] [("D", ⟨[("f", 1)]⟩)]
      (fun c => ⟨.str "h", rfl, rfl⟩) (fun _ => rfl) rfl rfl rfl
      (by decide) (by decide) (by decide)).1,
   (key_preservation_amended (fun _ => .ok (.str "h")) (fun _ => true)
      ⟨some [("A", ⟨["i"], [1]⟩)], some [("A", ⟨"c", .str "h"⟩)],
       some [("D", ⟨[("f", 1)]⟩)], none⟩
      [("A", ⟨["i"], [1]⟩)] [("A", ⟨"c", .str "h"⟩)] [("D", ⟨[("f", 1)]⟩)]
      (fun c => ⟨.str "h", rfl, rfl⟩) (fun _ => rfl) rfl rfl rfl
      (by decide) (by decide) (by decide)).2.1⟩

/-- C5: an item whose transform returns a falsy / `None`-equivalent result is
skipped — its key omitted from the output mapping — exactly as if the
transform had raised.  In the hypothesis loop a successful API call whose
JSON response is falsy (`if result:`) contributes nothing, just like the
raised-error case of C1; in the two visualizer loops a `None` from
`generate_visualization` contributes nothing; and in the literature stage the
skip-on-falsy policy is vacuous, because the transform's persisted payload is
a two-field JSON object, which is never falsy. -/
theorem falsy_result_skipped
    (post : String → Except String JValue) (pipelineOk : String → Bool)
    (pre₂ post₂ : List (String × LitPayload)) (a : String × LitPayload) (r : JValue)
    (hr : post (hypothesisPrompt (String.intercalate "\n" a.2.key_insights)) = .ok r)
    (ht : r.truthy = false)
    (preH postH : List (String × HypPayload)) (x : String × HypPayload)
    (hx : visHypVal pipelineOk x = none)
    (preR postR : List (String × ExpPayload)) (y : String × ExpPayload)
    (hy : visResVal pipelineOk y = none) :
    hypResults post (pre₂ ++ a :: post₂) = hypResults post (pre₂ ++ post₂)
    ∧ (preH ++ x :: postH).foldl (visHypStep pipelineOk) []
        = (preH ++ postH).foldl (visHypStep pipelineOk) []
    ∧ (preR ++ y :: postR).foldl (visResStep pipelineOk) []
        = (preR ++ postR).foldl (visResStep pipelineOk) []
    ∧ ∀ payload : LitPayload, payload.toJson.truthy = true := by
  have hval : hypVal post a = none := by
    rw [hypVal]
    simp [generate_hypothesis, hr, ht]
  refine ⟨?_, ?_, ?_, fun payload => rfl⟩
  · rw [hypResults, hypResults]
    exact foldl_ignore _ a (fun m => by simp [hval]) pre₂ post₂ []
  · exact foldl_ignore _ x (fun m => by simp [visHypStep, hx]) preH postH []
  · exact foldl_ignore _ y (fun m => by simp [visResStep, hy]) preR postR []

/-- C5 witness: an API call that succeeds with the falsy response `{}` on
item `"B"` leaves the output mapping identical to the one without `"B"`, and
a failing pipeline skips the visualizations. -/
theorem falsy_result_skipped_witness :
    hypResults (fun _ => .ok (.obj []))
        ([("A", ⟨["i"], [1]⟩)] ++ ("B", ⟨["j"], [2]⟩) :: [])
      = hypResults (fun _ => .ok (.obj [])) ([("A", ⟨["i"], [1]⟩)] ++ []) :=
  (falsy_result_skipped (fun _ => .ok (.obj [])) (fun _ => false)
    [("A", ⟨["i"], [1]⟩)] [] ("B", ⟨["j"], [2]⟩) (.obj []) rfl rfl
    [] [] ("H", ⟨"c", .str "h"⟩) rfl
    [] [] ("D", ⟨[("f", 1)]⟩) rfl).1

/-- C6: if the primary input is present ("papers found", respectively the
input artifact loaded) and the transform fails or returns empty on every
item, the stage still writes its output artifact, which exists as an empty
mapping — `some []`, not `none` — in the store. -/
theorem all_fail_writes_empty_artifact
    (extract : String → Except String Insights) (post : String → Except String JValue)
    (pipelineOk : String → Bool) (s : Store) (papers : List Paper)
    (lit : List (String × LitPayload)) (hyps : List (String × HypPayload))
    (analysis : List (String × ExpPayload))
    (hpap : papers ≠ [])
    (hfail₁ : ∀ p ∈ papers, litVal extract p = none)
    (hlit : s.literature_analysis = some lit)
    (hfail₂ : ∀ x ∈ lit, hypVal post x = none)
    (hhyp : s.generated_hypotheses = some hyps)
    (hexp : s.experimental_analysis = some analysis)
    (hfail₃ : ∀ x ∈ hyps, visHypVal pipelineOk x = none)
    (hfail₄ : ∀ x ∈ analysis, visResVal pipelineOk x = none) :
    (analyze_papers extract papers s).2.2.literature_analysis = some []
    ∧ (generate_hypotheses post s).2.2.generated_hypotheses = some []
    ∧ (generate_visualizations pipelineOk s).2.visualization_metadata = some [] := by
  have hres₁ : analyzeResults extract papers = [] := by
    rw [analyzeResults]
    exact foldl_insert_none _ Paper.title (litVal extract)
      (fun m p => by cases hp : extract p.content <;> simp [litVal, hp])
      papers [] hfail₁
  have hres₂ : hypResults post lit = [] := by
    rw [hypResults]
    exact foldl_insert_none _ Prod.fst (hypVal post)
      (fun m p => by cases hp : hypVal post p <;> simp [hp]) lit [] hfail₂
  have hres₃ : hyps.foldl (visHypStep pipelineOk) [] = [] :=
    foldl_insert_none _ (fun x => "hypothesis_" ++ x.1) (visHypVal pipelineOk)
      (fun m p => by cases hp : visHypVal pipelineOk p <;> simp [visHypStep, hp])
      hyps [] hfail₃
  have hres₄ : analysis.foldl (visResStep pipelineOk) [] = [] :=
    foldl_insert_none _ (fun x => "results_" ++ x.1) (visResVal pipelineOk)
      (fun m p => by cases hp : visResVal pipelineOk p <;> simp [visResStep, hp])
      analysis [] hfail₄
  refine ⟨?_, ?_, ?_⟩
  · rw [analyze_papers_eq extract papers s hpap]
    simp [hres₁]
  · rw [generate_hypotheses_eq post s lit hlit]
    simp [hres₂]
  · rw [generate_visualizations, hhyp, hexp]
    show some (analysis.foldl (visResStep pipelineOk)
      (hyps.foldl (visHypStep pipelineOk) [])) = some []
    rw [hres₃, hres₄]

/-- C6 witness: one paper, one literature entry, one hypothesis and one
dataset, with an always-raising transform, an always-failing API and a
failing pipeline: each stage writes `some []`. -/
theorem all_fail_writes_empty_artifact_witness :
    (analyze_papers (fun _ => .error "down") [⟨"A", "x"⟩]
        ⟨some [("A", ⟨["i"], [1]⟩)], some [("A", ⟨"c", .str "h"⟩)],
         some [("D", ⟨[("f", 1)]⟩)], none⟩).2.2.literature_analysis = some []
    ∧ (generate_hypotheses (fun _ => .error "down")
        ⟨some [("A", ⟨["i"], [1]⟩)], some [("A", ⟨"c", .str "h"⟩)],
         some [("D", ⟨[("f", 1)]⟩)], none⟩).2.2.generated_hypotheses = some []
    ∧ (generate_visualizations (fun _ => false)
        ⟨some [("A", ⟨["i"], [1]⟩)], some [("A", ⟨"c", .str "h"⟩)],
         some [("D", ⟨[("f", 1)]⟩)], none⟩).2.visualization_metadata = some [] :=
  all_fail_writes_empty_artifact (fun _ => .error "down") (fun _ => .error "down")
    (fun _ => false)
    ⟨some [("A", ⟨["i"], [1]⟩)], some [("A", ⟨"c", .str "h"⟩)],
     some [("D", ⟨[("f", 1)]⟩)], none⟩
    [⟨"A", "x"⟩] [("A", ⟨["i"], [1]⟩)] [("A", ⟨"c", .str "h"⟩)] [("D", ⟨[("f", 1)]⟩)]
    (by decide)
    (by intro p hp; rcases List.mem_singleton.mp hp with rfl; rfl)
    rfl
    (by intro x hx; rcases List.mem_singleton.mp hx with rfl; rfl)
    rfl rfl
    (by intro x hx; rcases List.mem_singleton.mp hx with rfl; rfl)
    (by intro x hx; rcases List.mem_singleton.mp hx with rfl; rfl)

/-- C7, as stated, is false: the visualizer persists
`visualization_metadata.json` by truncating the target in place and writing
into it (`open(path, "w")` + `json.dump`), not by write-to-temp-then-rename.
Interrupting right after the truncation leaves a readable file (`some ""`)
that is neither the prior artifact nor the new serialization — a
readable-but-truncated state the claim says can never exist. -/
theorem metadata_write_not_atomic_counterexample :
    fileAfter (some (serializeVisMetadata [("hypothesis_A", "a.png")]))
        ((directWriteOps (serializeVisMetadata [("results_B", "b.png")])).take 1)
      = some ""
    ∧ (some "" : Option String) ≠ some (serializeVisMetadata [("results_B", "b.png")])
    ∧ (some "" : Option String) ≠ some (serializeVisMetadata [("hypothesis_A", "a.png")])
    ∧ (some "" : Option String) ≠ none :=
  ⟨rfl, by decide, by decide, by decide⟩

/-- Appending a character list chunk-by-chunk to an existing file content
rebuilds exactly the concatenation. -/
theorem fileAfter_appends (cs : List Char) :
    ∀ sacc : String,
      (cs.map (fun c => WriteOp.append (String.mk [c]))).foldl applyOp (some sacc)
        = some (sacc ++ String.mk cs) := by
  induction cs with
  | nil =>
      intro sacc
      show some sacc = some (sacc ++ "")
      rw [String.append_empty]
  | cons c t ih =>
      intro sacc
      rw [List.map_cons, List.foldl_cons]
      show (t.map (fun c => WriteOp.append (String.mk [c]))).foldl applyOp
          (some (sacc ++ String.mk [c])) = some (sacc ++ String.mk (c :: t))
      rw [ih (sacc ++ String.mk [c])]
      congr 1
      apply String.ext
      show (sacc.data ++ [c]) ++ t = sacc.data ++ (c :: t)
      simp

/-- C7 amended: saving the visualization metadata completely replaces any
prior artifact of the same name — whatever was there before, the final file
content is exactly the new serialization, never a merge — but the write is
not all-or-nothing (see the counterexample: an interruption mid-write can
leave a readable-but-truncated file). -/
theorem metadata_write_complete_replace (prior : Option String)
    (m : List (String × String)) :
    fileAfter prior (directWriteOps (serializeVisMetadata m))
      = some (serializeVisMetadata m) := by
  rw [fileAfter, directWriteOps, List.foldl_cons]
  show ((serializeVisMetadata m).toList.map
    (fun c => WriteOp.append (String.mk [c]))).foldl applyOp (some "")
      = some (serializeVisMetadata m)
  rw [fileAfter_appends]
  rw [String.empty_append]
  rfl

/-- C8: re-running any stage on the store it just produced — its input
artifacts unchanged, the transform deterministic (a function) — yields the
identical store, and in particular a byte-for-byte identical serialized
output artifact. -/
theorem stage_rerun_idempotent (extract : String → Except String Insights)
    (papers : List Paper) (post : String → Except String JValue)
    (pipelineOk : String → Bool) (s : Store) :
    runLiterature extract papers (runLiterature extract papers s)
        = runLiterature extract papers s
    ∧ runHypothesis post (runHypothesis post s) = runHypothesis post s
    ∧ runVisualization pipelineOk (runVisualization pipelineOk s)
        = runVisualization pipelineOk s
    ∧ (runHypothesis post (runHypothesis post s)).generated_hypotheses.map
          serializeHypotheses
        = (runHypothesis post s).generated_hypotheses.map serializeHypotheses := by
  have hlit : runLiterature extract papers (runLiterature extract papers s)
      = runLiterature extract papers s := by
    cases hp : papers with
    | nil => rfl
    | cons q t =>
        have hne : (q :: t) ≠ ([] : List Paper) := by simp
        have h1 : runLiterature extract (q :: t) s
            = { s with literature_analysis
                  := some (analyzeResults extract (q :: t)) } := by
          rw [runLiterature, analyze_papers_eq extract (q :: t) s hne]
        rw [runLiterature, analyze_papers_eq extract (q :: t) _ hne, h1]
  have hhyp : runHypothesis post (runHypothesis post s) = runHypothesis post s := by
    cases hl : s.literature_analysis with
    | none =>
        have h1 : runHypothesis post s = s := by
          rw [runHypothesis, generate_hypotheses, hl]
        rw [h1, h1]
    | some lit =>
        have h1 : runHypothesis post s
            = { s with generated_hypotheses := some (hypResults post lit) } := by
          rw [runHypothesis, generate_hypotheses_eq post s lit hl]
        have hl2 : (runHypothesis post s).literature_analysis = some lit := by
          rw [h1]; exact hl
        rw [runHypothesis, generate_hypotheses_eq post _ lit hl2, h1]
  have hvis : runVisualization pipelineOk (runVisualization pipelineOk s)
      = runVisualization pipelineOk s := by
    cases hg : s.generated_hypotheses with
    | none =>
        have h1 : runVisualization pipelineOk s = s := by
          rw [runVisualization, generate_visualizations, hg]
        rw [h1, h1]
    | some hyps =>
        cases he : s.experimental_analysis with
        | none =>
            have h1 : runVisualization pipelineOk s = s := by
              rw [runVisualization, generate_visualizations, hg, he]
            rw [h1, h1]
        | some analysis =>
            have h1 : runVisualization pipelineOk s = { s with visualization_metadata := some (analysis.foldl (visResStep pipelineOk) (hyps.foldl (visHypStep pipelineOk) [])) } := by
              rw [runVisualization, generate_visualizations, hg, he]
            have hg2 : (runVisualization pipelineOk s).generated_hypotheses
                = some hyps := by
              rw [h1]; exact hg
            have he2 : (runVisualization pipelineOk s).experimental_analysis
                = some analysis := by
              rw [h1]; exact he
            rw [runVisualization, generate_visualizations, hg2, he2, h1, hg, he]
  exact ⟨hlit, hhyp, hvis,
    congrArg (fun st => st.generated_hypotheses.map serializeHypotheses) hhyp⟩

/-- C9: `extract_key_insights` returns `key_points` and `importance_scores`
lists of equal length, at most 3 entries — exactly 3 when the text has at
least 3 non-empty `'.'`-separated sentences — with the scores in
non-increasing order, and the selected sentences are the highest-scoring
ones: every scored sentence left out scores no higher than any selected
score. -/
theorem extract_key_insights_spec (score : String → ℚ) (text : String) :
    (extract_key_insights score text).key_points.length
        = (extract_key_insights score text).importance_scores.length
    ∧ (extract_key_insights score text).key_points.length ≤ 3
    ∧ (3 ≤ (sentenceScores score text).length →
        (extract_key_insights score text).key_points.length = 3)
    ∧ List.Sorted (· ≥ ·) (extract_key_insights score text).importance_scores
    ∧ ∀ x ∈ sentenceScores score text,
        x.1 ∉ (extract_key_insights score text).key_points →
        ∀ q ∈ (extract_key_insights score text).importance_scores, x.2 ≤ q := by
  have hkp : (extract_key_insights score text).key_points
      = (((sentenceScores score text).insertionSort scoreGE).take 3).map Prod.fst := rfl
  have his : (extract_key_insights score text).importance_scores
      = (((sentenceScores score text).insertionSort scoreGE).take 3).map Prod.snd := rfl
  have hsorted : ((sentenceScores score text).insertionSort scoreGE).Pairwise scoreGE :=
    List.sorted_insertionSort scoreGE (sentenceScores score text)
  have hlen : ((sentenceScores score text).insertionSort scoreGE).length
      = (sentenceScores score text).length :=
    List.length_insertionSort scoreGE (sentenceScores score text)
  refine ⟨?_, ?_, ?_, ?_, ?_⟩
  · rw [hkp, his, List.length_map, List.length_map]
  · rw [hkp, List.length_map, List.length_take]
    exact min_le_left _ _
  · intro h3
    rw [hkp, List.length_map, List.length_take, hlen]
    omega
  · rw [his]
    have htake : (((sentenceScores score text).insertionSort scoreGE).take 3).Pairwise
        scoreGE :=
      List.Pairwise.sublist (List.take_sublist 3 _) hsorted
    exact List.pairwise_map.mpr htake
  · intro x hx hnot q hq
    have hxl : x ∈ (sentenceScores score text).insertionSort scoreGE :=
      (List.mem_insertionSort scoreGE).mpr hx
    rw [← List.take_append_drop 3 ((sentenceScores score text).insertionSort scoreGE)]
      at hxl
    rcases List.mem_append.mp hxl with hxt | hxd
    · exact absurd (by rw [hkp]; exact List.mem_map_of_mem Prod.fst hxt) hnot
    · rw [his] at hq
      rcases List.mem_map.mp hq with ⟨k, hk, hkq⟩
      have hpair := hsorted
      rw [← List.take_append_drop 3 ((sentenceScores score text).insertionSort scoreGE)]
        at hpair
      have hrel : scoreGE k x := (List.pairwise_append.mp hpair).2.2 k hk x hxd
      rw [← hkq]
      exact hrel

/-- C9 witness: a text with four non-empty sentences, scored by length,
yields exactly three key points. -/
theorem extract_key_insights_spec_witness :
    (extract_key_insights (fun s => (s.length : ℚ))
        "alpha. beta. gamma. delta").key_points.length = 3 :=
  (extract_key_insights_spec (fun s => (s.length : ℚ))
    "alpha. beta. gamma. delta").2.2.1 (by decide)

/-- C10: for every key of the generated-hypotheses output, the stored entry
is determined by the same key's literature-analysis entry alone: its
`context` is the newline-join of that entry's `key_insights`, and its
`generated_hypothesis` is exactly the (truthy) JSON value the external API
returned for the prompt built from that context — persisted verbatim, with
no validation of its shape beyond Python truthiness. -/
theorem hypothesis_context_verbatim
    (post : String → Except String JValue) (s : Store)
    (lit : List (String × LitPayload))
    (hlit : s.literature_analysis = some lit)
    (hN : (lit.map Prod.fst).Nodup) :
    ∀ x ∈ lit,
      dictGet x.1 (generate_hypotheses post s).1
        = match (generate_hypothesis post
            (String.intercalate "\n" x.2.key_insights)).1 with
          | some r =>
              if r.truthy then
                some ⟨String.intercalate "\n" x.2.key_insights, r⟩
              else none
          | none => none := by
  intro x hx
  have h1 : (generate_hypotheses post s).1 = hypResults post lit := by
    rw [generate_hypotheses_eq post s lit hlit]
  rw [h1, hypResults_eq post lit hN]
  exact dictGet_filterMap Prod.fst (hypVal post) lit hN x hx

/-- C10 witness: one literature entry keyed `"A"` with two insights and an
API returning the JSON string `"resp"`: the persisted entry joins the
insights with a newline and stores the response verbatim. -/
theorem hypothesis_context_verbatim_witness :
    dictGet "A" (generate_hypotheses (fun _ => .ok (.str "resp"))
        ⟨some [("A", ⟨["i1", "i2"], [1, 2]⟩)], none, none, none⟩).1
      = some ⟨"i1" ++ "\n" ++ "i2", .str "resp"⟩ := by
  have h := hypothesis_context_verbatim (fun _ => .ok (.str "resp"))
    ⟨some [("A", ⟨["i1", "i2"], [1, 2]⟩)], none, none, none⟩
    [("A", ⟨["i1", "i2"], [1, 2]⟩)] rfl (by decide)
    ("A", ⟨["i1", "i2"], [1, 2]⟩) (by decide)
  exact h

end ASRA
